import Mathlib

/-!
Verification of the EmailCampaign discovery-and-verification pipeline.

Strings are modelled as `List Char`.  Python's `unidecode` transliteration is
modelled as a parameter `td : Char → List Char`; the facts used about it
(identity on ASCII, ASCII-only output) are stated as hypotheses where needed.
Network effects (DNS lookups, web search, the SMTP dialogue) are modelled as
oracle functions supplied through environment structures, and the functions
additionally return the list of network operations they perform.
-/

abbrev Str := List Char

def str (s : String) : Str := s.data

/-- Python's whitespace character class (`\s` for `str` patterns / `str.isspace`). -/
def pyIsSpace (c : Char) : Bool :=
  decide (c.toNat = 32 ∨ (9 ≤ c.toNat ∧ c.toNat ≤ 13) ∨ (28 ≤ c.toNat ∧ c.toNat ≤ 31) ∨
    c.toNat = 133 ∨ c.toNat = 160 ∨ c.toNat = 5760 ∨ (8192 ≤ c.toNat ∧ c.toNat ≤ 8202) ∨
    c.toNat = 8232 ∨ c.toNat = 8233 ∨ c.toNat = 8239 ∨ c.toNat = 8287 ∨ c.toNat = 12288)

def isLowerAZ (c : Char) : Bool := decide (97 ≤ c.toNat ∧ c.toNat ≤ 122)

def isUpperAZ (c : Char) : Bool := decide (65 ≤ c.toNat ∧ c.toNat ≤ 90)

def isDigitC (c : Char) : Bool := decide (48 ≤ c.toNat ∧ c.toNat ≤ 57)

def isAlphaC (c : Char) : Bool := isLowerAZ c || isUpperAZ c

/-- Python `str.lower` restricted to ASCII (all call sites only depend on ASCII). -/
def pyLower (c : Char) : Char := if isUpperAZ c then Char.ofNat (c.toNat + 32) else c

/-- Python `str.strip()`: drop leading and trailing whitespace. -/
def strip (s : Str) : Str := ((s.dropWhile pyIsSpace).reverse.dropWhile pyIsSpace).reverse

/-- Helper for `splitWs`; `cur` is the current token, reversed. -/
def splitWsAux (cur : Str) : Str → List Str
  | [] => if cur = [] then [] else [cur.reverse]
  | c :: t =>
    if pyIsSpace c then
      if cur = [] then splitWsAux [] t else cur.reverse :: splitWsAux [] t
    else splitWsAux (c :: cur) t

/-- Python `str.split()` with no separator: split on whitespace runs. -/
def splitWs (s : Str) : List Str := splitWsAux [] s

/-- `isPre pat s` = `s.startswith(pat)`. -/
def isPre : Str → Str → Bool
  | [], _ => true
  | _ :: _, [] => false
  | a :: s, b :: t => decide (a = b) && isPre s t

/-- `endsWith s suf` = `s.endswith(suf)`. -/
def endsWith (s suf : Str) : Bool := isPre suf.reverse s.reverse

/-- `isSubstr pat hay` = Python `pat in hay` for strings. -/
def isSubstr (pat : Str) : Str → Bool
  | [] => decide (pat = [])
  | c :: rest => isPre pat (c :: rest) || isSubstr pat rest

/-- Split at the first occurrence of `a`, returning the parts before and after it. -/
def breakAtFirst (a : Char) : Str → Option (Str × Str)
  | [] => none
  | c :: t =>
    if c = a then some ([], t)
    else
      match breakAtFirst a t with
      | some (u, v) => some (c :: u, v)
      | none => none

/-! ## pattern_generator.py -/

/-- The character class `[a-z\s-]` kept by `normalize_name`. -/
def keepCh (c : Char) : Bool := isLowerAZ c || pyIsSpace c || decide (c = '-')

/-- `name.replace('-', ' ')`, character by character. -/
def dashToSpace (c : Char) : Char := if c = '-' then ' ' else c

/--
`normalize_name` from `pattern_generator.py`: transliterate (`td` models
`unidecode`), lowercase and strip, remove characters outside `[a-z\s-]`,
turn hyphens into spaces, strip again.
-/
def normalize_name (td : Char → List Char) (name : Str) : Str :=
  if name = [] then []
  else
    let n1 := name.flatMap td
    let n2 := strip (n1.map pyLower)
    let n3 := n2.filter keepCh
    let n4 := n3.map dashToSpace
    strip n4

/-- First token of the normalized given name (`first_parts[0]`, or `""`). -/
def firstTok (td : Char → List Char) (first_name : Str) : Str :=
  ((splitWs (normalize_name td first_name)).head?).getD []

/-- Last token of the normalized family name (`last_parts[-1]`, or `""`). -/
def lastTok (td : Char → List Char) (last_name : Str) : Str :=
  ((splitWs (normalize_name td last_name)).getLast?).getD []

/--
`generate_email_patterns` from `pattern_generator.py`: the 16 canonical
local-part patterns, each combined with `@domain`, in source order.
-/
def generate_email_patterns (td : Char → List Char) (first_name last_name domain : Str) :
    List Str :=
  if normalize_name td first_name = [] ∨ normalize_name td last_name = [] ∨ domain = [] then []
  else
    let f := firstTok td first_name
    let l := lastTok td last_name
    if f = [] ∨ l = [] then []
    else
      let fi := f.take 1
      let li := l.take 1
      let patterns : List Str :=
        [f ++ str "." ++ l, f ++ l, fi ++ l, f ++ str "_" ++ l, f, l, f ++ li,
         fi ++ str "." ++ l, l ++ str "." ++ f, l ++ f, l ++ fi, fi ++ li,
         f ++ str "-" ++ l, l ++ str "-" ++ f, fi ++ str "_" ++ l, f ++ str "." ++ li]
      patterns.map (fun p => p ++ str "@" ++ domain)

/--
`generate_email_patterns_extended` from `pattern_generator.py`: the canonical
list, then numeric-suffix variants, then middle-initial variants when the
given name has more than one token.
-/
def generate_email_patterns_extended (td : Char → List Char)
    (first_name last_name domain : Str) : List Str :=
  let basic := generate_email_patterns td first_name last_name domain
  if normalize_name td first_name = [] ∨ normalize_name td last_name = [] ∨ domain = [] then
    basic
  else
    let first_parts := splitWs (normalize_name td first_name)
    let f := firstTok td first_name
    let l := lastTok td last_name
    if f = [] ∨ l = [] then basic
    else
      let extended :=
        ([str "1", str "2", str "01", str "02"]).foldl
          (fun acc num =>
            acc ++ [f ++ str "." ++ l ++ num ++ str "@" ++ domain,
                    f ++ l ++ num ++ str "@" ++ domain,
                    f.take 1 ++ l ++ num ++ str "@" ++ domain]) []
      let extended :=
        match first_parts.get? 1 with
        | some t =>
            extended ++ [f ++ str "." ++ t.take 1 ++ str "." ++ l ++ str "@" ++ domain,
                         f ++ t.take 1 ++ l ++ str "@" ++ domain]
        | none => extended
      basic ++ extended

/-- Concrete transliteration used in witnesses: identity on ASCII, ASCII-only output. -/
def td0 : Char → List Char := fun c => if c.toNat < 128 then [c] else []

/-! ## domain_finder.py -/

/-- Drop trailing whitespace characters. -/
def dropTrailWs (s : Str) : Str := (s.reverse.dropWhile pyIsSpace).reverse

/--
Core of one anchored substitution `re.sub(r'\s+STEM(OPT)?$', '', core)` where
`OPT` is an optional final character (`\.?` or `s?`).  Returns the replaced
string when the pattern matches (the match consumes the maximal whitespace run,
since `re.sub` picks the leftmost starting position), `none` otherwise.
-/
def tryCore (stem : Str) (optC : Option Char) (core : Str) : Option Str :=
  let rest? :=
    match optC with
    | some c =>
      if endsWith core (stem ++ [c]) then some (core.take (core.length - (stem.length + 1)))
      else if endsWith core stem then some (core.take (core.length - stem.length))
      else none
    | none =>
      if endsWith core stem then some (core.take (core.length - stem.length))
      else none
  match rest? with
  | none => none
  | some r =>
    let u := dropTrailWs r
    if u.length < r.length then some u else none

/--
`re.sub(r'\s+STEM(OPT)?$', '', s)`: `$` matches at the end of the string or
just before a terminating newline.
-/
def reSubSuffix (stem : Str) (optC : Option Char) (s : Str) : Str :=
  if s.getLast? = some '\n' then
    match tryCore stem optC s.dropLast with
    | some u => u ++ ['\n']
    | none => s
  else
    match tryCore stem optC s with
    | some u => u
    | none => s

/-- Helper for `re.sub(r',.*$', '', ·)`: prefix before the leftmost comma whose
tail (within the `$`-scope) contains no newline. -/
def cutCommaAux : Str → Option Str
  | [] => none
  | c :: t =>
    if decide (c = ',') && !(t.contains '\n') then some []
    else
      match cutCommaAux t with
      | some r => some (c :: r)
      | none => none

/-- `re.sub(r',.*$', '', s)`. -/
def reSubCommaRest (s : Str) : Str :=
  if s.getLast? = some '\n' then
    match cutCommaAux s.dropLast with
    | some pre => pre ++ ['\n']
    | none => s
  else
    match cutCommaAux s with
    | some pre => pre
    | none => s

/-- The legal-entity suffix patterns of `normalize_company_name`, in source order:
stem plus optional trailing character (`\.?` or `s?`). -/
def companySuffixes : List (Str × Option Char) :=
  [(str "inc", some '.'), (str "llc", some '.'), (str "ltd", some '.'), (str "corp", some '.'),
   (str "corporation", none), (str "company", none), (str "co", some '.'), (str "group", none),
   (str "holding", some 's'), (str "technologies", none), (str "technology", none),
   (str "solutions", none), (str "services", none), (str "international", none),
   (str "worldwide", none), (str "global", none)]

/-- `normalize_company_name` from `domain_finder.py`. -/
def normalize_company_name (company : Str) : Str :=
  let n := strip (company.map pyLower)
  let n := companySuffixes.foldl (fun acc sc => reSubSuffix sc.1 sc.2 acc) n
  strip (reSubCommaRest n)

/-- `KNOWN_DOMAINS` from `domain_finder.py`, in insertion order. -/
def KNOWN_DOMAINS : List (Str × Str) :=
  [(str "google", str "google.com"), (str "microsoft", str "microsoft.com"),
   (str "apple", str "apple.com"), (str "amazon", str "amazon.com"),
   (str "meta", str "meta.com"), (str "facebook", str "meta.com"),
   (str "netflix", str "netflix.com"), (str "salesforce", str "salesforce.com"),
   (str "oracle", str "oracle.com"), (str "ibm", str "ibm.com"),
   (str "intel", str "intel.com"), (str "cisco", str "cisco.com"),
   (str "adobe", str "adobe.com"), (str "spotify", str "spotify.com"),
   (str "uber", str "uber.com"), (str "airbnb", str "airbnb.com"),
   (str "linkedin", str "linkedin.com"), (str "twitter", str "x.com"),
   (str "stripe", str "stripe.com"), (str "shopify", str "shopify.com"),
   (str "slack", str "slack.com"), (str "zoom", str "zoom.us"),
   (str "dropbox", str "dropbox.com"), (str "hubspot", str "hubspot.com"),
   (str "mailchimp", str "mailchimp.com"), (str "twilio", str "twilio.com"),
   (str "datadog", str "datadoghq.com"), (str "snowflake", str "snowflake.com"),
   (str "palantir", str "palantir.com")]

/-- `guess_domain_from_name` from `domain_finder.py`. -/
def guess_domain_from_name (company : Str) : Option Str :=
  let normalized := normalize_company_name company
  match KNOWN_DOMAINS.find? (fun kv => isSubstr kv.1 normalized || isSubstr normalized kv.1) with
  | some kv => some kv.2
  | none =>
    let simple := normalized.filter (fun c => isLowerAZ c || isDigitC c)
    if simple = [] then none else some (simple ++ str ".com")

/-- A network operation performed by the domain resolver. -/
inductive NetOp where
  | dnsVerify (domain : Str)
  | webSearch (company : Str)
deriving DecidableEq

/-- Oracles for the resolver's network effects: `verify_domain_exists` and
`search_domain_duckduckgo`. -/
structure DomainEnv where
  verifies : Str → Bool
  search : Str → Option Str

abbrev DomainCache := List (Str × Str)

/-- Python dict lookup on the association-list model of the cache. -/
def lookupA : DomainCache → Str → Option Str
  | [], _ => none
  | (k, v) :: t, key => if k = key then some v else lookupA t key

/-- Python dict assignment `m[key] = v` (update in place, else append). -/
def dictInsert : DomainCache → Str → Str → DomainCache
  | [], key, v => [(key, v)]
  | (k, w) :: t, key, v => if k = key then (key, v) :: t else (k, w) :: dictInsert t key v

/-- `if cache and cache_key in cache: cache[cache_key]` (empty dict is falsy). -/
def cacheLookup (cache : Option DomainCache) (key : Str) : Option Str :=
  match cache with
  | none => none
  | some m => if m.isEmpty then none else lookupA m key

/-- `if cache is not None: cache[cache_key] = v`. -/
def cachePut (cache : Option DomainCache) (key v : Str) : Option DomainCache :=
  match cache with
  | none => none
  | some m => some (dictInsert m key v)

/--
`find_domain` from `domain_finder.py`.  Returns the resolved domain, the
updated cache, and the list of network operations performed.
-/
def find_domain (env : DomainEnv) (company : Str) (cache : Option DomainCache) :
    Option Str × Option DomainCache × List NetOp :=
  if company = [] ∨ strip company = [] then (none, cache, [])
  else
    let key := normalize_company_name company
    match cacheLookup cache key with
    | some v => (some v, cache, [])
    | none =>
      let guessed := guess_domain_from_name company
      let finalPhase : List NetOp → Option Str × Option DomainCache × List NetOp :=
        fun ops =>
          match guessed with
          | some g => (some g, cachePut cache key g, ops)
          | none => (none, cache, ops)
      let searchPhase : List NetOp → Option Str × Option DomainCache × List NetOp :=
        fun ops =>
          match env.search company with
          | some s =>
            if env.verifies s then
              (some s, cachePut cache key s, ops ++ [NetOp.webSearch company, NetOp.dnsVerify s])
            else finalPhase (ops ++ [NetOp.webSearch company, NetOp.dnsVerify s])
          | none => finalPhase (ops ++ [NetOp.webSearch company])
      match guessed with
      | some g =>
        if env.verifies g then (some g, cachePut cache key g, [NetOp.dnsVerify g])
        else searchPhase [NetOp.dnsVerify g]
      | none => searchPhase []

/-! ## email_verifier.py -/

inductive VerificationResult where
  | VALID
  | INVALID
  | CATCH_ALL
  | UNKNOWN
deriving DecidableEq

structure EmailVerification where
  email : Str
  result : VerificationResult
  message : Str
deriving DecidableEq

/--
The scripted behaviour of one SMTP session against one mail exchanger.
`none` for a response models a timeout / read error at that step;
`connectOk = false` models a connection failure.
-/
structure SmtpScript where
  connectOk : Bool
  greeting : Option Str
  heloResp : Option Str
  mailFromResp : Option Str
  rcptResp : Option Str
  rcptFakeResp : Option Str

/-- `response[:3].decode() if len(response) >= 3 else ""`. -/
def code3 (r : Str) : Str := if 3 ≤ r.length then r.take 3 else []

/-- `_check_catch_all` from `email_verifier.py`: `True` iff the synthetic
RCPT TO response arrives and has code 250; any failure yields `False`. -/
def check_catch_all (s : SmtpScript) : Bool :=
  match s.rcptFakeResp with
  | none => false
  | some r => decide (code3 r = str "250")

/-- The domain part used for the synthetic address: `email.split('@')[1]`. -/
def emailDomainFirst (email : Str) : Str :=
  match breakAtFirst '@' email with
  | some uv => uv.2
  | none => []

/-- The synthetic RCPT TO command issued by `_check_catch_all`. -/
def fakeRcptCmd (email : Str) : Str :=
  str "RCPT TO:<nonexistent_user_test_12345@" ++ emailDomainFirst email ++ str ">\r\n"

def heloCmd : Str := str "HELO verify.local\r\n"

def mailFromCmd : Str := str "MAIL FROM:<verify@verify.local>\r\n"

def rcptCmd (email : Str) : Str := str "RCPT TO:<" ++ email ++ str ">\r\n"

def quitCmd : Str := str "QUIT\r\n"

/-- The dialogue of `_check_smtp` after the connection is established, up to
the `finally` block: result plus commands sent so far. -/
def check_smtp_core (s : SmtpScript) (email : Str) : EmailVerification × List Str :=
  match s.greeting with
  | none => (⟨email, VerificationResult.UNKNOWN, str "Connection timeout"⟩, [])
  | some g =>
    if ¬ isPre (str "220") g then (⟨email, VerificationResult.UNKNOWN, str "Bad greeting"⟩, [])
    else
      match s.heloResp with
      | none => (⟨email, VerificationResult.UNKNOWN, str "Connection timeout"⟩, [heloCmd])
      | some _ =>
        match s.mailFromResp with
        | none =>
          (⟨email, VerificationResult.UNKNOWN, str "Connection timeout"⟩, [heloCmd, mailFromCmd])
        | some m =>
          if ¬ isPre (str "250") m then
            (⟨email, VerificationResult.UNKNOWN, str "MAIL FROM rejected"⟩, [heloCmd, mailFromCmd])
          else
            match s.rcptResp with
            | none =>
              (⟨email, VerificationResult.UNKNOWN, str "Connection timeout"⟩,
               [heloCmd, mailFromCmd, rcptCmd email])
            | some r =>
              let code := code3 r
              let message := strip r
              let sent := [heloCmd, mailFromCmd, rcptCmd email]
              if code = str "250" then
                if check_catch_all s then
                  (⟨email, VerificationResult.CATCH_ALL, str "Domain accepts all emails"⟩,
                   sent ++ [fakeRcptCmd email])
                else
                  (⟨email, VerificationResult.VALID, str "Email exists"⟩,
                   sent ++ [fakeRcptCmd email])
              else if code = str "550" ∨ code = str "551" ∨ code = str "552" ∨
                  code = str "553" ∨ code = str "554" then
                (⟨email, VerificationResult.INVALID, message⟩, sent)
              else if code = str "450" ∨ code = str "451" then
                (⟨email, VerificationResult.UNKNOWN, str "Temporary error"⟩, sent)
              else
                (⟨email, VerificationResult.UNKNOWN, message⟩, sent)

/-- `_check_smtp` from `email_verifier.py`: the `finally` block always sends
QUIT once the connection was established. -/
def check_smtp (s : SmtpScript) (email : Str) : EmailVerification × List Str :=
  if ¬ s.connectOk then (⟨email, VerificationResult.UNKNOWN, str "Connection timeout"⟩, [])
  else
    let rc := check_smtp_core s email
    (rc.1, rc.2 ++ [quitCmd])

/-- Oracles for the prober's network effects: `get_mx_records` results and the
per-(email, host) scripted SMTP session. -/
structure VerifierEnv where
  mx : Str → List Str
  script : Str → Str → SmtpScript

/-- A network operation performed by the prober. -/
inductive ProbeOp where
  | mxLookup (domain : Str)
  | smtpConnect (host : Str)
deriving DecidableEq

/-- `local_part, domain = email.rsplit('@', 1)`. -/
def rsplitDomain (email : Str) : Str × Str :=
  match breakAtFirst '@' email.reverse with
  | some dl => (dl.2.reverse, dl.1.reverse)
  | none => (email, [])

/-- `verify_email_mx_only` from `email_verifier.py`. -/
def verify_email_mx_only (env : VerifierEnv) (email : Str) : EmailVerification :=
  if email = [] ∨ ¬ email.contains '@' then
    ⟨email, VerificationResult.INVALID, str "Invalid email format"⟩
  else
    let domain := (rsplitDomain email).2
    if env.mx domain = [] then
      ⟨email, VerificationResult.INVALID, str "No MX records - domain cannot receive email"⟩
    else ⟨email, VerificationResult.VALID, str "Domain can receive email (MX verified)"⟩

/-- The `for mx_host in mx_hosts[:2]` loop of `verify_email_smtp`: first
non-UNKNOWN per-host result, plus the connections attempted. -/
def tryHosts (env : VerifierEnv) (email : Str) : List Str → Option EmailVerification × List ProbeOp
  | [] => (none, [])
  | h :: t =>
    let r := (check_smtp (env.script email h) email).1
    if r.result ≠ VerificationResult.UNKNOWN then (some r, [ProbeOp.smtpConnect h])
    else
      let rest := tryHosts env email t
      (rest.1, ProbeOp.smtpConnect h :: rest.2)

/-- `verify_email_smtp` from `email_verifier.py`: result plus the network
operations performed. -/
def verify_email_smtp (env : VerifierEnv) (email : Str) : EmailVerification × List ProbeOp :=
  if email = [] ∨ ¬ email.contains '@' then
    (⟨email, VerificationResult.INVALID, str "Invalid email format"⟩, [])
  else
    let domain := (rsplitDomain email).2
    let mx_hosts := env.mx domain
    if mx_hosts = [] then
      (⟨email, VerificationResult.UNKNOWN, str "No MX records found"⟩, [ProbeOp.mxLookup domain])
    else
      match tryHosts env email (mx_hosts.take 2) with
      | (some r, ops) => (r, ProbeOp.mxLookup domain :: ops)
      | (none, ops) => (verify_email_mx_only env email, ProbeOp.mxLookup domain :: ops)

/-- Character class `[a-zA-Z0-9._%+-]` of the local part. -/
def isLocalChar (c : Char) : Bool :=
  isAlphaC c || isDigitC c || decide (c = '.') || decide (c = '_') || decide (c = '%') ||
    decide (c = '+') || decide (c = '-')

/-- Character class `[a-zA-Z0-9.-]` of the domain part. -/
def isDomainChar (c : Char) : Bool :=
  isAlphaC c || isDigitC c || decide (c = '.') || decide (c = '-')

/--
`quick_syntax_check` from `email_verifier.py`:
`re.match(r'^[a-zA-Z0-9._%+-]+@[a-zA-Z0-9.-]+\.[a-zA-Z]\x7b2,\x7d$', email)`.
The `@` of the pattern must be the first `@` of the string, and the `\.` the
last dot after it; `$` also matches just before a terminating newline.
-/
def quick_syntax_check (email : Str) : Bool :=
  let s := if email.getLast? = some '\n' then email.dropLast else email
  match breakAtFirst '@' s with
  | none => false
  | some lr =>
    match breakAtFirst '.' lr.2.reverse with
    | none => false
    | some tl =>
      let tld := tl.1.reverse
      let dom := tl.2.reverse
      decide (lr.1 ≠ []) && lr.1.all isLocalChar && decide (dom ≠ []) && dom.all isDomainChar &&
        decide (2 ≤ tld.length) && tld.all isAlphaC

/-! ## email_finder.py -/

structure ContactResult where
  first_name : Str
  last_name : Str
  company : Str
  domain : Option Str
  found_email : Option Str
  verification_status : Str
  patterns_tried : Nat
deriving DecidableEq

/-- Everything `LinkedInEmailFinder.find_email_for_contact` needs from the
outside world: the transliteration and the two network environments. -/
structure FinderEnv where
  td : Char → List Char
  domEnv : DomainEnv
  verEnv : VerifierEnv

/--
The `for i, email in enumerate(patterns[:8])` loop of
`find_email_for_contact`; `i` is the running `enumerate` counter and `rest`
the remaining candidates of `patterns[:8]`.
-/
def tryPatterns (fe : FinderEnv) (first_name last_name company domain : Str)
    (patterns : List Str) (i : Nat) : List Str → ContactResult
  | [] =>
    ⟨first_name, last_name, company, some domain, none, str "not_found",
     (patterns.take 8).length⟩
  | email :: rest =>
    if ¬ quick_syntax_check email then
      tryPatterns fe first_name last_name company domain patterns (i + 1) rest
    else
      let r := (verify_email_smtp fe.verEnv email).1
      if r.result = VerificationResult.VALID then
        ⟨first_name, last_name, company, some domain, some email, str "verified", i + 1⟩
      else if r.result = VerificationResult.CATCH_ALL then
        ⟨first_name, last_name, company, some domain, patterns.head?, str "catch_all", i + 1⟩
      else tryPatterns fe first_name last_name company domain patterns (i + 1) rest

/--
`LinkedInEmailFinder.find_email_for_contact` from `email_finder.py`.
Returns the contact result together with the updated domain cache.
-/
def find_email_for_contact (fe : FinderEnv) (verify : Bool) (cache : DomainCache)
    (first_name last_name company : Str) : ContactResult × DomainCache :=
  if first_name = [] ∨ last_name = [] ∨ company = [] then
    (⟨first_name, last_name, company, none, none, str "missing_data", 0⟩, cache)
  else
    let fd := find_domain fe.domEnv company (some cache)
    let cache' := fd.2.1.getD cache
    match fd.1 with
    | none =>
      (⟨first_name, last_name, company, none, none, str "no_domain", 0⟩, cache')
    | some domain =>
      let patterns := generate_email_patterns fe.td first_name last_name domain
      if patterns = [] then
        (⟨first_name, last_name, company, some domain, none, str "no_patterns", 0⟩, cache')
      else if verify = false then
        (⟨first_name, last_name, company, some domain, patterns.head?, str "unverified", 1⟩,
         cache')
      else
        (tryPatterns fe first_name last_name company domain patterns 0 (patterns.take 8), cache')

/-! ## Concrete environments used by witnesses and counterexamples -/

/-- A scripted session whose RCPT TO is rejected with a permanent code. -/
def invScript : SmtpScript :=
  ⟨true, some (str "220 ok"), some (str "250 ok"), some (str "250 ok"),
   some (str "550 no such user"), none⟩

/-- A scripted catch-all session: both RCPT TOs are accepted. -/
def caScript : SmtpScript :=
  ⟨true, some (str "220 ok"), some (str "250 ok"), some (str "250 ok"),
   some (str "250 ok"), some (str "250 ok")⟩

/-- A scripted session accepting the target RCPT TO and rejecting the synthetic one. -/
def okScript : SmtpScript :=
  ⟨true, some (str "220 ok"), some (str "250 ok"), some (str "250 ok"),
   some (str "250 ok"), some (str "550 no such user")⟩

/-- A scripted session accepting the target RCPT TO whose synthetic RCPT TO
read then fails (no response). -/
def timeoutFakeScript : SmtpScript :=
  ⟨true, some (str "220 ok"), some (str "250 ok"), some (str "250 ok"),
   some (str "250 ok"), none⟩

/-- A scripted session whose connection attempt fails. -/
def deadScript : SmtpScript := ⟨false, none, none, none, none, none⟩

/-- A verifier environment whose MX lookups always come back empty. -/
def envNoMx : VerifierEnv := ⟨fun _ => [], fun _ _ => okScript⟩

/-- A verifier environment where `acme.com` has one exchanger that never answers. -/
def envDead : VerifierEnv :=
  ⟨fun d => if d = str "acme.com" then [str "mx1.acme.com"] else [], fun _ _ => deadScript⟩

/-- A verifier environment where the bare domain `b` has a working exchanger. -/
def envC4 : VerifierEnv :=
  ⟨fun d => if d = str "b" then [str "mx1"] else [], fun _ _ => okScript⟩

/-- A domain environment where DNS verification always fails and web search
finds nothing. -/
def envD0 : DomainEnv := ⟨fun _ => false, fun _ => none⟩

/-- Orchestrator environment for the catch-all witness: `acme.com` has one mail
exchanger, `john.smith@acme.com` is rejected, `johnsmith@acme.com` hits a
catch-all session. -/
def feW : FinderEnv :=
  ⟨td0, ⟨fun _ => true, fun _ => none⟩,
   ⟨fun d => if d = str "acme.com" then [str "mx.acme.com"] else [],
    fun e _ => if e = str "johnsmith@acme.com" then caScript else invScript⟩⟩

/-! ## Shared lemmas about the string utilities -/

lemma dwIdem (p : Char → Bool) (l : Str) : (l.dropWhile p).dropWhile p = l.dropWhile p := by
  induction l with
  | nil => rfl
  | cons c t ih =>
    by_cases h : p c
    · simpa [List.dropWhile_cons, h] using ih
    · simp [List.dropWhile_cons, h]

lemma dwDrop (p : Char → Bool) : ∀ l : Str, ∃ n, l.dropWhile p = l.drop n := by
  intro l
  induction l with
  | nil => exact ⟨0, rfl⟩
  | cons c t ih =>
    by_cases h : p c
    · obtain ⟨n, hn⟩ := ih
      exact ⟨n + 1, by simp [List.dropWhile_cons, h, hn]⟩
    · exact ⟨0, by simp [List.dropWhile_cons, h]⟩

lemma dwSelfCons (p : Char → Bool) (a : Char) (t : Str)
    (h : List.dropWhile p (a :: t) = a :: t) : p a = false := by
  by_cases pa : p a
  · rw [List.dropWhile_cons, if_pos pa] at h
    obtain ⟨n, hn⟩ := dwDrop p t
    rw [hn] at h
    have := congrArg List.length h
    simp [List.length_drop] at this
    omega
  · simpa using pa

lemma memDropWhile (p : Char → Bool) (l : Str) (c : Char) (h : c ∈ l.dropWhile p) : c ∈ l := by
  obtain ⟨n, hn⟩ := dwDrop p l
  rw [hn] at h
  exact List.mem_of_mem_drop h

lemma memStrip (s : Str) (c : Char) (h : c ∈ strip s) : c ∈ s := by
  rw [strip] at h
  rw [List.mem_reverse] at h
  have h2 := memDropWhile _ _ _ h
  rw [List.mem_reverse] at h2
  exact memDropWhile _ _ _ h2

lemma headTakeNot (p : Char → Bool) (l : Str) (n : Nat) (c : Char) (t : Str)
    (hl : l.dropWhile p = l) (h : l.take n = c :: t) : p c = false := by
  cases l with
  | nil => simp at h
  | cons a l' =>
    cases n with
    | zero => simp at h
    | succ m =>
      rw [List.take_succ_cons] at h
      have ha : a = c := (List.cons.injEq _ _ _ _ ▸ h).1
      subst ha
      exact dwSelfCons p a l' hl

lemma stripRevFix (s : Str) : (strip s).reverse.dropWhile pyIsSpace = (strip s).reverse := by
  rw [strip, List.reverse_reverse]
  exact dwIdem _ _

lemma stripHeadFix (s : Str) : (strip s).dropWhile pyIsSpace = strip s := by
  obtain ⟨n, hn⟩ := dwDrop pyIsSpace (s.dropWhile pyIsSpace).reverse
  have hexp : strip s = (s.dropWhile pyIsSpace).take ((s.dropWhile pyIsSpace).length - n) := by
    rw [strip, hn, List.reverse_drop]
    simp
  have hfix : (s.dropWhile pyIsSpace).dropWhile pyIsSpace = s.dropWhile pyIsSpace := dwIdem _ _
  rw [hexp]
  cases htk : (s.dropWhile pyIsSpace).take ((s.dropWhile pyIsSpace).length - n) with
  | nil => rfl
  | cons c t =>
    have hc := headTakeNot pyIsSpace _ _ c t hfix htk
    rw [List.dropWhile_cons, if_neg (by simp [hc])]

lemma strip_strip (s : Str) : strip (strip s) = strip s := by
  conv_lhs => rw [strip, stripHeadFix, stripRevFix, List.reverse_reverse]

lemma flatMapId (td : Char → List Char) (l : Str) (h : ∀ c ∈ l, td c = [c]) :
    l.flatMap td = l := by
  induction l with
  | nil => rfl
  | cons c t ih =>
    rw [List.flatMap_cons, h c (by simp), ih (fun a ha => h a (by simp [ha]))]
    rfl

lemma mapSelf (f : Char → Char) (l : Str) (h : ∀ c ∈ l, f c = c) : l.map f = l := by
  induction l with
  | nil => rfl
  | cons c t ih =>
    rw [List.map_cons, h c (by simp), ih (fun a ha => h a (by simp [ha]))]

lemma pyLower_id_of (c : Char) (h : isLowerAZ c = true ∨ pyIsSpace c = true) : pyLower c = c := by
  have hu : isUpperAZ c = false := by
    rcases h with h | h
    · have hp := of_decide_eq_true h
      exact decide_eq_false (by omega)
    · have hp := of_decide_eq_true h
      exact decide_eq_false (by omega)
  simp [pyLower, hu]

lemma keepCh_of (c : Char) (h : isLowerAZ c = true ∨ pyIsSpace c = true) : keepCh c = true := by
  rcases h with h | h <;> simp [keepCh, h]

lemma dashToSpace_id_of (c : Char) (h : isLowerAZ c = true ∨ pyIsSpace c = true) :
    dashToSpace c = c := by
  have hne : c ≠ '-' := by
    rintro rfl
    rcases h with h | h
    · exact absurd h (by decide)
    · exact absurd h (by decide)
  simp [dashToSpace, hne]

lemma toNat_pyLower_lt (c : Char) (h : c.toNat < 128) : (pyLower c).toNat < 128 := by
  by_cases hu : isUpperAZ c = true
  · have hp := of_decide_eq_true hu
    have hv : (c.toNat + 32).isValidChar := Or.inl (by omega)
    have hofn : (Char.ofNat (c.toNat + 32)).toNat = c.toNat + 32 := by
      unfold Char.ofNat
      simp [hv]
      rfl
    simp only [pyLower, if_pos hu, hofn]
    omega
  · simpa [pyLower, hu] using h

lemma toNat_dashToSpace_lt (c : Char) (h : c.toNat < 128) : (dashToSpace c).toNat < 128 := by
  by_cases hd : c = '-'
  · simp [dashToSpace, hd]
  · simpa [dashToSpace, hd] using h

lemma normalize_name_nil (td : Char → List Char) : normalize_name td [] = [] := by
  simp [normalize_name]

lemma mem_normalize_lower_or_space (td : Char → List Char) (name : Str) (c : Char)
    (h : c ∈ normalize_name td name) : isLowerAZ c = true ∨ pyIsSpace c = true := by
  by_cases hn : name = []
  · rw [hn, normalize_name_nil] at h
    simp at h
  · rw [normalize_name, if_neg hn] at h
    have h1 := memStrip _ _ h
    obtain ⟨c', hc', rfl⟩ := List.mem_map.mp h1
    have h2 := (List.mem_filter.mp hc').2
    have h3 : (isLowerAZ c' = true ∨ pyIsSpace c' = true) ∨ c' = '-' := by
      simpa [keepCh] using h2
    rcases h3 with (h3 | h3) | h3
    · left
      rwa [dashToSpace_id_of c' (Or.inl h3)]
    · right
      rwa [dashToSpace_id_of c' (Or.inr h3)]
    · right
      rw [h3]
      decide

lemma mem_normalize_ascii (td : Char → List Char) (name : Str) (c : Char)
    (hB : ∀ a b, b ∈ td a → b.toNat < 128) (h : c ∈ normalize_name td name) :
    c.toNat < 128 := by
  by_cases hn : name = []
  · rw [hn, normalize_name_nil] at h
    simp at h
  · rw [normalize_name, if_neg hn] at h
    have h1 := memStrip _ _ h
    obtain ⟨c1, hc1, rfl⟩ := List.mem_map.mp h1
    have h2 := (List.mem_filter.mp hc1).1
    have h3 := memStrip _ _ h2
    obtain ⟨c2, hc2, rfl⟩ := List.mem_map.mp h3
    obtain ⟨a, _, hmem⟩ := List.mem_flatMap.mp hc2
    exact toNat_dashToSpace_lt _ (toNat_pyLower_lt _ (hB a c2 hmem))

lemma normalize_name_of_ne (td : Char → List Char) (name : Str) (h : name ≠ []) :
    normalize_name td name =
      strip (List.map dashToSpace
        (List.filter keepCh (strip (List.map pyLower (name.flatMap td))))) := by
  unfold normalize_name
  rw [if_neg h]

/-! ## Claim theorems -/

/--
C5, counterexample: company-name normalization is not idempotent.  Each pass of
`normalize_company_name` can strip one trailing legal suffix, so
`"acme co co"` normalizes to `"acme co"`, which normalizes further to `"acme"`.
-/
theorem claim_C5_counterexample :
    normalize_company_name (normalize_company_name (str "acme co co")) ≠
      normalize_company_name (str "acme co co") := by decide

/--
C5 (amended): person-name normalization (`normalize_name`) is idempotent —
`normalize(normalize(x)) = normalize(x)` for every input — and normalizing an
empty or missing value yields the empty string, for both person-name and
company-name normalization.  Company-name normalization
(`normalize_company_name`) is, however, not idempotent in general (see the
counterexample): each application can strip one further trailing legal suffix.
The hypotheses record the two facts used about `unidecode`: it is the identity
on ASCII and produces only ASCII output.
-/
theorem claim_C5_normalization_idempotent (td : Char → List Char)
    (hA : ∀ c, c.toNat < 128 → td c = [c])
    (hB : ∀ a b, b ∈ td a → b.toNat < 128) :
    (∀ name, normalize_name td (normalize_name td name) = normalize_name td name) ∧
    normalize_name td [] = [] ∧ normalize_company_name [] = [] := by
  refine ⟨?_, normalize_name_nil td, by decide⟩
  intro name
  by_cases hy : normalize_name td name = []
  · rw [hy, normalize_name_nil]
  · have hname : name ≠ [] := by
      intro h
      exact hy (by rw [h, normalize_name_nil])
    have hLS : ∀ c ∈ normalize_name td name, isLowerAZ c = true ∨ pyIsSpace c = true :=
      fun c hc => mem_normalize_lower_or_space td name c hc
    have hAs : ∀ c ∈ normalize_name td name, c.toNat < 128 :=
      fun c hc => mem_normalize_ascii td name c hB hc
    have h1 : (normalize_name td name).flatMap td = normalize_name td name :=
      flatMapId td _ (fun c hc => hA c (hAs c hc))
    have h2 : (normalize_name td name).map pyLower = normalize_name td name :=
      mapSelf _ _ (fun c hc => pyLower_id_of c (hLS c hc))
    have h3 : strip (normalize_name td name) = normalize_name td name := by
      rw [normalize_name_of_ne td name hname, strip_strip]
    have h4 : (normalize_name td name).filter keepCh = normalize_name td name :=
      List.filter_eq_self.mpr (fun c hc => keepCh_of c (hLS c hc))
    have h5 : (normalize_name td name).map dashToSpace = normalize_name td name :=
      mapSelf _ _ (fun c hc => dashToSpace_id_of c (hLS c hc))
    rw [normalize_name_of_ne td _ hy, h1, h2, h3, h4, h5, h3]

/-- Witness for C5: the amended theorem applied at the ASCII transliteration
`td0` and the concrete input `" Mary-Ann "`. -/
theorem claim_C5_witness :
    normalize_name td0 (normalize_name td0 (str " Mary-Ann ")) =
      normalize_name td0 (str " Mary-Ann ") ∧
    normalize_name td0 [] = [] ∧ normalize_company_name [] = [] := by
  have h := claim_C5_normalization_idempotent td0
    (fun c hc => by simp [td0, hc])
    (fun a b hb => by
      by_cases ha : a.toNat < 128
      · simp [td0, ha] at hb
        subst hb
        exact ha
      · simp [td0, ha] at hb)
  exact ⟨h.1 (str " Mary-Ann "), h.2.1, h.2.2⟩

lemma firstTok_ne_imp (td : Char → List Char) (fn : Str) (h : firstTok td fn ≠ []) :
    normalize_name td fn ≠ [] := by
  intro hn
  apply h
  unfold firstTok
  rw [hn]
  rfl

lemma lastTok_ne_imp (td : Char → List Char) (ln : Str) (h : lastTok td ln ≠ []) :
    normalize_name td ln ≠ [] := by
  intro hn
  apply h
  unfold lastTok
  rw [hn]
  rfl

lemma flatMapCongr (td td' : Char → List Char) :
    ∀ l : Str, (∀ c ∈ l, td c = td' c) → l.flatMap td = l.flatMap td' := by
  intro l
  induction l with
  | nil => intro _; rfl
  | cons c t ih =>
    intro h
    rw [List.flatMap_cons, List.flatMap_cons, h c (by simp),
      ih (fun a ha => h a (by simp [ha]))]

lemma normalize_name_congr (td td' : Char → List Char) (name : Str)
    (h : ∀ c ∈ name, td c = td' c) : normalize_name td name = normalize_name td' name := by
  by_cases hn : name = []
  · rw [hn, normalize_name_nil, normalize_name_nil]
  · rw [normalize_name_of_ne td name hn, normalize_name_of_ne td' name hn,
      flatMapCongr td td' name h]

lemma generate_patterns_congr (td td' : Char → List Char) (fn ln dom : Str)
    (hf : ∀ c ∈ fn, td c = td' c) (hl : ∀ c ∈ ln, td c = td' c) :
    generate_email_patterns td fn ln dom = generate_email_patterns td' fn ln dom := by
  have e1 := normalize_name_congr td td' fn hf
  have e2 := normalize_name_congr td td' ln hl
  have e3 : firstTok td fn = firstTok td' fn := by
    unfold firstTok
    rw [e1]
  have e4 : lastTok td ln = lastTok td' ln := by
    unfold lastTok
    rw [e2]
  simp only [generate_email_patterns, e1, e2, e3, e4]

/--
C2: whenever the normalized first-name token `f`, the normalized surname token
`l`, and the domain are all non-empty, `generate_email_patterns` returns
exactly the 16 addresses `f.l, fl, fi+l, f_l, f, l, f+li, fi.l, l.f, lf, l+fi,
fi+li, f-l, l-f, fi_l, f.li` (each with `@domain`), in exactly that order; for
`("John","Smith","acme.com")` the element at index 0 is
`john.smith@acme.com`; and if either token or the domain is empty after
normalization the result is the empty list.
-/
theorem claim_C2_pattern_list (td : Char → List Char) (fn ln dom : Str) :
    (firstTok td fn ≠ [] → lastTok td ln ≠ [] → dom ≠ [] →
      generate_email_patterns td fn ln dom =
        [firstTok td fn ++ str "." ++ lastTok td ln ++ str "@" ++ dom,
         firstTok td fn ++ lastTok td ln ++ str "@" ++ dom,
         (firstTok td fn).take 1 ++ lastTok td ln ++ str "@" ++ dom,
         firstTok td fn ++ str "_" ++ lastTok td ln ++ str "@" ++ dom,
         firstTok td fn ++ str "@" ++ dom,
         lastTok td ln ++ str "@" ++ dom,
         firstTok td fn ++ (lastTok td ln).take 1 ++ str "@" ++ dom,
         (firstTok td fn).take 1 ++ str "." ++ lastTok td ln ++ str "@" ++ dom,
         lastTok td ln ++ str "." ++ firstTok td fn ++ str "@" ++ dom,
         lastTok td ln ++ firstTok td fn ++ str "@" ++ dom,
         lastTok td ln ++ (firstTok td fn).take 1 ++ str "@" ++ dom,
         (firstTok td fn).take 1 ++ (lastTok td ln).take 1 ++ str "@" ++ dom,
         firstTok td fn ++ str "-" ++ lastTok td ln ++ str "@" ++ dom,
         lastTok td ln ++ str "-" ++ firstTok td fn ++ str "@" ++ dom,
         (firstTok td fn).take 1 ++ str "_" ++ lastTok td ln ++ str "@" ++ dom,
         firstTok td fn ++ str "." ++ (lastTok td ln).take 1 ++ str "@" ++ dom]) ∧
    (firstTok td fn = [] ∨ lastTok td ln = [] ∨ dom = [] →
      generate_email_patterns td fn ln dom = []) ∧
    ((∀ c, c.toNat < 128 → td c = [c]) →
      (generate_email_patterns td (str "John") (str "Smith") (str "acme.com")).head? =
        some (str "john.smith@acme.com")) := by
  refine ⟨?_, ?_, ?_⟩
  · intro h1 h2 h3
    have hn1 := firstTok_ne_imp td fn h1
    have hn2 := lastTok_ne_imp td ln h2
    simp only [generate_email_patterns]
    rw [if_neg (by simp [hn1, hn2, h3]), if_neg (by simp [h1, h2])]
    simp [List.append_assoc]
  · intro h
    by_cases hg : normalize_name td fn = [] ∨ normalize_name td ln = [] ∨ dom = []
    · simp only [generate_email_patterns]
      rw [if_pos hg]
    · rcases h with h | h | h
      · simp only [generate_email_patterns]
        rw [if_neg hg, if_pos (Or.inl h)]
      · simp only [generate_email_patterns]
        rw [if_neg hg, if_pos (Or.inr h)]
      · exact absurd (Or.inr (Or.inr h)) hg
  · intro hA
    have hmf : ∀ c ∈ str "John", c.toNat < 128 := by decide
    have hml : ∀ c ∈ str "Smith", c.toNat < 128 := by decide
    have hf : ∀ c ∈ str "John", td c = td0 c := fun c hc => by
      simp [hA c (hmf c hc), td0, hmf c hc]
    have hl : ∀ c ∈ str "Smith", td c = td0 c := fun c hc => by
      simp [hA c (hml c hc), td0, hml c hc]
    rw [generate_patterns_congr td td0 _ _ _ hf hl]
    decide

/-- Witness for C2: the theorem applied at `td0` and `("John","Smith","acme.com")`. -/
theorem claim_C2_witness :
    generate_email_patterns td0 (str "John") (str "Smith") (str "acme.com") =
      [str "john.smith@acme.com", str "johnsmith@acme.com", str "jsmith@acme.com",
       str "john_smith@acme.com", str "john@acme.com", str "smith@acme.com",
       str "johns@acme.com", str "j.smith@acme.com", str "smith.john@acme.com",
       str "smithjohn@acme.com", str "smithj@acme.com", str "js@acme.com",
       str "john-smith@acme.com", str "smith-john@acme.com", str "j_smith@acme.com",
       str "john.s@acme.com"] := by
  have h := (claim_C2_pattern_list td0 (str "John") (str "Smith") (str "acme.com")).1
    (by decide) (by decide) (by decide)
  rw [h]
  decide

/--
C8, counterexample: the extended generator combines each numeric suffix with
the THREE most common base patterns (`f.l`, `fl`, `fi+l`), not two.  For
`("John","Smith","acme.com")` (no middle token) the claim predicts
`16 + 4*2 = 24` patterns, but the code produces 28, and index 18 holds
`jsmith1@acme.com` — a numeric variant of the third base pattern.
-/
theorem claim_C8_counterexample :
    (generate_email_patterns_extended td0 (str "John") (str "Smith") (str "acme.com")).length
        = 28 ∧
    (generate_email_patterns_extended td0 (str "John") (str "Smith") (str "acme.com")).get? 18
        = some (str "jsmith1@acme.com") := by decide

/--
C8 (amended): the extended-mode generator returns the canonical 16-pattern
list unchanged as a prefix (never reordered), followed by numeric-suffix
variants combining each of the suffixes 1, 2, 01, 02 with the THREE most
common base patterns (`f.l`, `fl`, `fi+l`), in suffix-major order, and then,
when the given name has a middle token, exactly two additional patterns
incorporating the middle initial.
-/
theorem claim_C8_extended_patterns (td : Char → List Char) (fn ln dom : Str)
    (h1 : firstTok td fn ≠ []) (h2 : lastTok td ln ≠ []) (h3 : dom ≠ []) :
    generate_email_patterns_extended td fn ln dom =
      generate_email_patterns td fn ln dom ++
        [firstTok td fn ++ str "." ++ lastTok td ln ++ str "1" ++ str "@" ++ dom,
         firstTok td fn ++ lastTok td ln ++ str "1" ++ str "@" ++ dom,
         (firstTok td fn).take 1 ++ lastTok td ln ++ str "1" ++ str "@" ++ dom,
         firstTok td fn ++ str "." ++ lastTok td ln ++ str "2" ++ str "@" ++ dom,
         firstTok td fn ++ lastTok td ln ++ str "2" ++ str "@" ++ dom,
         (firstTok td fn).take 1 ++ lastTok td ln ++ str "2" ++ str "@" ++ dom,
         firstTok td fn ++ str "." ++ lastTok td ln ++ str "01" ++ str "@" ++ dom,
         firstTok td fn ++ lastTok td ln ++ str "01" ++ str "@" ++ dom,
         (firstTok td fn).take 1 ++ lastTok td ln ++ str "01" ++ str "@" ++ dom,
         firstTok td fn ++ str "." ++ lastTok td ln ++ str "02" ++ str "@" ++ dom,
         firstTok td fn ++ lastTok td ln ++ str "02" ++ str "@" ++ dom,
         (firstTok td fn).take 1 ++ lastTok td ln ++ str "02" ++ str "@" ++ dom] ++
        (match (splitWs (normalize_name td fn)).get? 1 with
         | some t =>
             [firstTok td fn ++ str "." ++ t.take 1 ++ str "." ++ lastTok td ln ++
                str "@" ++ dom,
              firstTok td fn ++ t.take 1 ++ lastTok td ln ++ str "@" ++ dom]
         | none => []) := by
  have hn1 := firstTok_ne_imp td fn h1
  have hn2 := lastTok_ne_imp td ln h2
  simp only [generate_email_patterns_extended]
  rw [if_neg (by simp [hn1, hn2, h3]), if_neg (by simp [h1, h2])]
  rcases hm : (splitWs (normalize_name td fn)).get? 1 with _ | t
  · simp [hm, List.append_assoc]
  · simp [hm, List.append_assoc]

/-- Witness for C8: the amended theorem at `td0` and `("Mary Ann","Smith","x.io")`,
an input with a middle token. -/
theorem claim_C8_witness :
    generate_email_patterns_extended td0 (str "Mary Ann") (str "Smith") (str "x.io") =
      generate_email_patterns td0 (str "Mary Ann") (str "Smith") (str "x.io") ++
        [str "mary.smith1@x.io", str "marysmith1@x.io", str "msmith1@x.io",
         str "mary.smith2@x.io", str "marysmith2@x.io", str "msmith2@x.io",
         str "mary.smith01@x.io", str "marysmith01@x.io", str "msmith01@x.io",
         str "mary.smith02@x.io", str "marysmith02@x.io", str "msmith02@x.io",
         str "mary.a.smith@x.io", str "maryasmith@x.io"] := by
  have h := claim_C8_extended_patterns td0 (str "Mary Ann") (str "Smith") (str "x.io")
    (by decide) (by decide) (by decide)
  rw [h]
  decide

/--
C1: with greeting, HELO, and MAIL FROM accepted, `_check_smtp` classifies the
first RCPT TO response as follows.  Code 250: a second RCPT TO for the
synthetic local part `nonexistent_user_test_12345` at the same domain is
issued; if that one also returns 250 the outcome is CATCH_ALL, and if it is
rejected (a response with a different code) the outcome is VALID.  A permanent
code 550–554 yields INVALID, and a transient code 450/451 yields UNKNOWN for
this host.
-/
theorem claim_C1_rcpt_classification (s : SmtpScript) (email g h m r : Str)
    (hcon : s.connectOk = true)
    (hg : s.greeting = some g) (hg2 : isPre (str "220") g = true)
    (hhelo : s.heloResp = some h)
    (hmail : s.mailFromResp = some m) (hm2 : isPre (str "250") m = true)
    (hrcpt : s.rcptResp = some r) :
    (∀ fr, code3 r = str "250" → s.rcptFakeResp = some fr →
      fakeRcptCmd email ∈ (check_smtp s email).2 ∧
      (code3 fr = str "250" →
        (check_smtp s email).1 =
          ⟨email, VerificationResult.CATCH_ALL, str "Domain accepts all emails"⟩) ∧
      (code3 fr ≠ str "250" →
        (check_smtp s email).1 = ⟨email, VerificationResult.VALID, str "Email exists"⟩)) ∧
    ((code3 r = str "550" ∨ code3 r = str "551" ∨ code3 r = str "552" ∨
      code3 r = str "553" ∨ code3 r = str "554") →
      (check_smtp s email).1 = ⟨email, VerificationResult.INVALID, strip r⟩) ∧
    ((code3 r = str "450" ∨ code3 r = str "451") →
      (check_smtp s email).1 =
        ⟨email, VerificationResult.UNKNOWN, str "Temporary error"⟩) := by
  refine ⟨?_, ?_, ?_⟩
  · intro fr h250 hfr
    have hca : check_catch_all s = decide (code3 fr = str "250") := by
      simp [check_catch_all, hfr]
    by_cases hfc : code3 fr = str "250"
    · have hcared : check_catch_all s = true := by
        rw [hca]
        simp [hfc]
      have hred : check_smtp s email =
          (⟨email, VerificationResult.CATCH_ALL, str "Domain accepts all emails"⟩,
           [heloCmd, mailFromCmd, rcptCmd email, fakeRcptCmd email, quitCmd]) := by
        simp [check_smtp, hcon, check_smtp_core, hg, hg2, hhelo, hmail, hm2, hrcpt, h250,
          hcared]
      rw [hred]
      exact ⟨by simp, fun _ => rfl, fun hne => absurd hfc hne⟩
    · have hcared : check_catch_all s = false := by
        rw [hca]
        simp [hfc]
      have hred : check_smtp s email =
          (⟨email, VerificationResult.VALID, str "Email exists"⟩,
           [heloCmd, mailFromCmd, rcptCmd email, fakeRcptCmd email, quitCmd]) := by
        simp [check_smtp, hcon, check_smtp_core, hg, hg2, hhelo, hmail, hm2, hrcpt, h250,
          hcared]
      rw [hred]
      exact ⟨by simp, fun hpos => absurd hpos hfc, fun _ => rfl⟩
  · intro hcode
    rcases hcode with hcd | hcd | hcd | hcd | hcd <;>
      simp +decide [check_smtp, hcon, check_smtp_core, hg, hg2, hhelo, hmail, hm2, hrcpt, hcd]
  · intro hcode
    rcases hcode with hcd | hcd <;>
      simp +decide [check_smtp, hcon, check_smtp_core, hg, hg2, hhelo, hmail, hm2, hrcpt, hcd]

/-- Witness for C1: a concrete catch-all script. -/
theorem claim_C1_witness :
    (check_smtp caScript (str "a@b.co")).1 =
      ⟨str "a@b.co", VerificationResult.CATCH_ALL, str "Domain accepts all emails"⟩ := by
  have h := (claim_C1_rcpt_classification caScript (str "a@b.co")
    (str "220 ok") (str "250 ok") (str "250 ok") (str "250 ok")
    rfl rfl (by decide) rfl rfl (by decide) rfl).1 (str "250 ok") (by decide) rfl
  exact h.2.1 (by decide)

/--
C9: if the first RCPT TO succeeds but reading the response to the synthetic
catch-all RCPT TO fails (timeout, connection error, or any exception —
modelled as a missing response), `_check_catch_all` reports `False` and the
probe returns VALID for the target address.
-/
theorem claim_C9_catch_all_failure (s : SmtpScript) (email g h m r : Str)
    (hcon : s.connectOk = true)
    (hg : s.greeting = some g) (hg2 : isPre (str "220") g = true)
    (hhelo : s.heloResp = some h)
    (hmail : s.mailFromResp = some m) (hm2 : isPre (str "250") m = true)
    (hrcpt : s.rcptResp = some r) (h250 : code3 r = str "250")
    (hfail : s.rcptFakeResp = none) :
    check_catch_all s = false ∧
    (check_smtp s email).1 = ⟨email, VerificationResult.VALID, str "Email exists"⟩ := by
  have hca : check_catch_all s = false := by
    simp [check_catch_all, hfail]
  refine ⟨hca, ?_⟩
  simp [check_smtp, hcon, check_smtp_core, hg, hg2, hhelo, hmail, hm2, hrcpt, h250, hca]

/-- Witness for C9: a concrete session whose synthetic RCPT TO read times out. -/
theorem claim_C9_witness :
    check_catch_all timeoutFakeScript = false ∧
    (check_smtp timeoutFakeScript (str "a@b.co")).1 =
      ⟨str "a@b.co", VerificationResult.VALID, str "Email exists"⟩ :=
  claim_C9_catch_all_failure timeoutFakeScript (str "a@b.co")
    (str "220 ok") (str "250 ok") (str "250 ok") (str "250 ok")
    rfl rfl (by decide) rfl rfl (by decide) rfl (by decide) rfl

lemma tryHosts_all_unknown (env : VerifierEnv) (email : Str) :
    ∀ hs : List Str,
      (∀ hx ∈ hs,
        (check_smtp (env.script email hx) email).1.result = VerificationResult.UNKNOWN) →
      (tryHosts env email hs).1 = none := by
  intro hs
  induction hs with
  | nil => intro _; rfl
  | cons a t ih =>
    intro hall
    have ha := hall a (by simp)
    simp [tryHosts, ha]
    exact ih (fun hx hhx => hall hx (by simp [hhx]))

/--
C3, counterexample: when the MX lookup yields no records, `verify_email_smtp`
returns UNKNOWN ("No MX records found") immediately — it does not fall back to
the MX-only heuristic, and the outcome is neither VALID nor INVALID as the
claim would require.
-/
theorem claim_C3_counterexample :
    (verify_email_smtp envNoMx (str "alice@example.com")).1.result =
        VerificationResult.UNKNOWN ∧
    (verify_email_smtp envNoMx (str "alice@example.com")).1.message =
        str "No MX records found" ∧
    (verify_email_smtp envNoMx (str "alice@example.com")).1.result ≠
        VerificationResult.VALID ∧
    (verify_email_smtp envNoMx (str "alice@example.com")).1.result ≠
        VerificationResult.INVALID := by decide

/--
C3 (amended): if the MX record lookup yields no records, the probe stops with
outcome UNKNOWN ("No MX records found") after only the MX lookup; the MX-only
fallback — which consults MX records only (any MX record present ⇒ VALID,
otherwise INVALID; A records are never consulted) — applies only when MX
records exist but every attempted host's SMTP check ends UNKNOWN, in which
case the outcome is VALID.
-/
theorem claim_C3_no_mx_fallback (env : VerifierEnv) (email : Str)
    (hne : email ≠ []) (hat : email.contains '@' = true) :
    (env.mx (rsplitDomain email).2 = [] →
      verify_email_smtp env email =
        (⟨email, VerificationResult.UNKNOWN, str "No MX records found"⟩,
         [ProbeOp.mxLookup (rsplitDomain email).2])) ∧
    (env.mx (rsplitDomain email).2 ≠ [] →
      (∀ hx ∈ (env.mx (rsplitDomain email).2).take 2,
        (check_smtp (env.script email hx) email).1.result = VerificationResult.UNKNOWN) →
      (verify_email_smtp env email).1 =
        ⟨email, VerificationResult.VALID, str "Domain can receive email (MX verified)"⟩) := by
  have hat2 : '@' ∈ email := by simpa using hat
  constructor
  · intro hmx
    simp [verify_email_smtp, hne, hat2, hmx]
  · intro hmx hall
    have ht := tryHosts_all_unknown env email _ hall
    rcases htp : tryHosts env email ((env.mx (rsplitDomain email).2).take 2) with ⟨o, ops⟩
    rw [htp] at ht
    simp only at ht
    subst ht
    simp [verify_email_smtp, hne, hat2, hmx, htp, verify_email_mx_only]

/-- Witness for C3 (amended): a host list whose only exchanger never answers. -/
theorem claim_C3_witness :
    (verify_email_smtp envDead (str "bob@acme.com")).1 =
      ⟨str "bob@acme.com", VerificationResult.VALID,
       str "Domain can receive email (MX verified)"⟩ :=
  (claim_C3_no_mx_fallback envDead (str "bob@acme.com") (by decide) (by decide)).2
    (by decide) (by decide)

/--
C4, counterexample: `"a@b"` fails the syntax regex (`quick_syntax_check`),
yet `verify_email_smtp` probes it anyway — the probe performs network
operations and returns VALID, not INVALID.  The regex precondition is enforced
by the orchestrator, not by the probe itself.
-/
theorem claim_C4_counterexample :
    quick_syntax_check (str "a@b") = false ∧
    (verify_email_smtp envC4 (str "a@b")).1.result = VerificationResult.VALID ∧
    (verify_email_smtp envC4 (str "a@b")).2 ≠ [] := by decide

/--
C4 (amended): the probe itself rejects exactly the inputs that are empty or
contain no `@`: for those it returns INVALID ("Invalid email format")
immediately, performing no network access (no DNS lookup and no SMTP
connection).  Inputs that fail the regex but contain an `@` are still probed;
the regex check is applied by the orchestrator, which skips such candidates
without probing them.
-/
theorem claim_C4_invalid_no_network (env : VerifierEnv) (email : Str)
    (h : email = [] ∨ email.contains '@' = false) :
    verify_email_smtp env email =
      (⟨email, VerificationResult.INVALID, str "Invalid email format"⟩, []) := by
  rcases h with h | h
  · subst h
    rfl
  · have hat2 : '@' ∉ email := by simpa using h
    simp [verify_email_smtp, hat2]

/-- Witness for C4 (amended): an input with no `@`. -/
theorem claim_C4_witness :
    verify_email_smtp envC4 (str "nodomain") =
      (⟨str "nodomain", VerificationResult.INVALID, str "Invalid email format"⟩, []) :=
  claim_C4_invalid_no_network envC4 (str "nodomain") (Or.inr (by decide))

/--
C7, counterexample: a blank company name normalizes to the empty string, and
even when that empty key is present in the cache, `find_domain` returns `none`
(the blank guard fires before the cache is consulted) instead of the stored
value.
-/
theorem claim_C7_counterexample :
    normalize_company_name (str " ") = [] ∧
    lookupA [([], str "google.com")] [] = some (str "google.com") ∧
    (find_domain envD0 (str " ") (some [([], str "google.com")])).1 = none := by decide

lemma find_domain_cache_hit (env : DomainEnv) (company v : Str) (m : DomainCache)
    (h1 : company ≠ []) (h2 : strip company ≠ [])
    (h3 : lookupA m (normalize_company_name company) = some v) :
    find_domain env company (some m) = (some v, some m, []) := by
  have hm : m.isEmpty = false := by
    cases m with
    | nil => simp [lookupA] at h3
    | cons a t => rfl
  simp [find_domain, h1, h2, cacheLookup, hm, h3]

/--
C7 (amended): for every company name that is non-empty and not entirely
whitespace, if the normalized company name (the cache key) is present in the
domain cache, `find_domain` returns the stored value unchanged, leaves the
cache untouched, and performs no network operations.  A blank company name,
however, returns `none` without consulting the cache, even when the empty
normalized form has a cached entry.
-/
theorem claim_C7_cache_hit (env : DomainEnv) (company v : Str) (m : DomainCache) :
    (company ≠ [] → strip company ≠ [] →
      lookupA m (normalize_company_name company) = some v →
      find_domain env company (some m) = (some v, some m, [])) ∧
    (strip company = [] → find_domain env company (some m) = (none, some m, [])) := by
  constructor
  · exact fun h1 h2 h3 => find_domain_cache_hit env company v m h1 h2 h3
  · intro h
    simp [find_domain, h]

/-- Witness for C7 (amended): a concrete cache hit. -/
theorem claim_C7_witness :
    find_domain envD0 (str "Acme") (some [(str "acme", str "stored.example")]) =
      (some (str "stored.example"), some [(str "acme", str "stored.example")], []) :=
  (claim_C7_cache_hit envD0 (str "Acme") (str "stored.example")
    [(str "acme", str "stored.example")]).1 (by decide) (by decide) (by decide)

lemma dictInsert_isEmpty (m : DomainCache) (k v : Str) :
    (dictInsert m k v).isEmpty = false := by
  cases m with
  | nil => rfl
  | cons a t =>
    obtain ⟨k1, w⟩ := a
    by_cases h : k1 = k <;> simp [dictInsert, h]

lemma lookupA_dictInsert (m : DomainCache) (k v : Str) :
    lookupA (dictInsert m k v) k = some v := by
  induction m with
  | nil => simp [dictInsert, lookupA]
  | cons a t ih =>
    obtain ⟨k1, w⟩ := a
    by_cases h : k1 = k
    · simp [dictInsert, h, lookupA]
    · simp [dictInsert, h, lookupA, ih]

/--
C10, counterexample to the universally-quantified consequence: `",x"`
normalizes to the empty string and (since the empty string is a substring of
`"google"`) guesses `google.com`; with DNS verification and web search both
failing, the unverified guess is cached under the empty key.  But a blank
company name `" "`, which has the same normalized form, still resolves to
`none` rather than the cached guess.
-/
theorem claim_C10_counterexample :
    (find_domain envD0 (str ",x") (some [])).1 = some (str "google.com") ∧
    (find_domain envD0 (str ",x") (some [])).2.1 = some [([], str "google.com")] ∧
    normalize_company_name (str " ") = normalize_company_name (str ",x") ∧
    (find_domain envD0 (str " ") (some [([], str "google.com")])).1 = none := by decide

/--
C10 (amended): when the transform-guessed domain exists but neither it nor the
search-derived candidate passes DNS verification, `find_domain` returns the
unverified guess and writes it into the cache under the normalized company
name; afterwards, every resolution of a non-blank company name with the same
normalized form returns that guess from the cache with no network operations.
Blank company names bypass the cache and return `none`.
-/
theorem claim_C10_unverified_cached (env env2 : DomainEnv) (company g : Str) (m : DomainCache)
    (h1 : company ≠ []) (h2 : strip company ≠ [])
    (hmiss : lookupA m (normalize_company_name company) = none)
    (hg : guess_domain_from_name company = some g)
    (hv : env.verifies g = false)
    (hs : ∀ sr, env.search company = some sr → env.verifies sr = false) :
    (find_domain env company (some m)).1 = some g ∧
    (find_domain env company (some m)).2.1 =
      some (dictInsert m (normalize_company_name company) g) ∧
    (∀ company2, company2 ≠ [] → strip company2 ≠ [] →
      normalize_company_name company2 = normalize_company_name company →
      find_domain env2 company2 (some (dictInsert m (normalize_company_name company) g)) =
        (some g, some (dictInsert m (normalize_company_name company) g), [])) := by
  have hcl : cacheLookup (some m) (normalize_company_name company) = none := by
    cases m with
    | nil => rfl
    | cons a t => simpa [cacheLookup] using hmiss
  have hmain : (find_domain env company (some m)).1 = some g ∧
      (find_domain env company (some m)).2.1 =
        some (dictInsert m (normalize_company_name company) g) := by
    rcases hse : env.search company with _ | sr
    · constructor <;> simp [find_domain, h1, h2, hcl, hg, hv, hse, cachePut]
    · have hvs := hs sr hse
      constructor <;> simp [find_domain, h1, h2, hcl, hg, hv, hse, hvs, cachePut]
  exact ⟨hmain.1, hmain.2, fun c2 hc1 hc2 hkey =>
    find_domain_cache_hit env2 c2 g _ hc1 hc2
      (by rw [hkey]; exact lookupA_dictInsert m _ g)⟩

/-- Witness for C10 (amended): `"zqx corp"` guesses `zqx.com`, verification and
search fail, and `"ZQX Inc."` (same normalized form `"zqx"`) then hits the cache. -/
theorem claim_C10_witness :
    (find_domain envD0 (str "zqx corp") (some [])).1 = some (str "zqx.com") ∧
    find_domain envD0 (str "ZQX Inc.")
        (some (dictInsert [] (normalize_company_name (str "zqx corp")) (str "zqx.com"))) =
      (some (str "zqx.com"),
       some (dictInsert [] (normalize_company_name (str "zqx corp")) (str "zqx.com")), []) := by
  have h := claim_C10_unverified_cached envD0 envD0 (str "zqx corp") (str "zqx.com") []
    (by decide) (by decide) (by decide) (by decide) rfl
    (fun sr hsr => Option.noConfusion hsr)
  exact ⟨h.1, h.2.2 (str "ZQX Inc.") (by decide) (by decide) (by decide)⟩

lemma tryPatterns_first_catch_all (fe : FinderEnv) (fn ln co dom : Str)
    (patterns : List Str) :
    ∀ (l : List Str) (i0 i : Nat) (ei : Str),
      l.get? i = some ei →
      (∀ j ej, j < i → l.get? j = some ej →
        quick_syntax_check ej = false ∨
          ((verify_email_smtp fe.verEnv ej).1.result ≠ VerificationResult.VALID ∧
           (verify_email_smtp fe.verEnv ej).1.result ≠ VerificationResult.CATCH_ALL)) →
      quick_syntax_check ei = true →
      (verify_email_smtp fe.verEnv ei).1.result = VerificationResult.CATCH_ALL →
      tryPatterns fe fn ln co dom patterns i0 l =
        ⟨fn, ln, co, some dom, patterns.head?, str "catch_all", i0 + i + 1⟩ := by
  intro l
  induction l with
  | nil =>
    intro i0 i ei hget _ _ _
    simp at hget
  | cons e t ih =>
    intro i0 i ei hget hprev hsyn hca
    cases i with
    | zero =>
      have he : e = ei := by simpa using hget
      subst he
      simp [tryPatterns, hsyn, hca]
    | succ n =>
      have hget2 : t.get? n = some ei := by simpa using hget
      have hprev2 : ∀ j ej, j < n → t.get? j = some ej →
          quick_syntax_check ej = false ∨
            ((verify_email_smtp fe.verEnv ej).1.result ≠ VerificationResult.VALID ∧
             (verify_email_smtp fe.verEnv ej).1.result ≠ VerificationResult.CATCH_ALL) :=
        fun j ej hj hg => hprev (j + 1) ej (by omega) (by simpa using hg)
      have hrec := ih (i0 + 1) n ei hget2 hprev2 hsyn hca
      have hskip := hprev 0 e (Nat.succ_pos n) (by simp)
      by_cases hqe : quick_syntax_check e = true
      · rcases hskip with hf | ⟨hnv, hnc⟩
        · rw [hqe] at hf
          exact absurd hf (by simp)
        · simp [tryPatterns, hqe, hnv, hnc]
          rw [hrec]
          congr 1
          omega
      · have hf : quick_syntax_check e = false := by simpa using hqe
        simp [tryPatterns, hf]
        rw [hrec]
        congr 1
        omega

/--
C6: in the orchestrator's per-contact loop, when the candidate at index `i` is
the first whose probe outcome is conclusive (VALID or CATCH_ALL) and that
outcome is CATCH_ALL, the contact result has status `catch_all`, its reported
email is the first-priority pattern (index 0 of the generated list, i.e. its
head), not the candidate that was probed, and the number of patterns tried is
`i + 1`.
-/
theorem claim_C6_catch_all_reports_first (fe : FinderEnv) (cache : DomainCache)
    (fn ln co dom : Str) (i : Nat) (ei : Str)
    (hfn : fn ≠ []) (hln : ln ≠ []) (hco : co ≠ [])
    (hd : (find_domain fe.domEnv co (some cache)).1 = some dom)
    (hget : ((generate_email_patterns fe.td fn ln dom).take 8).get? i = some ei)
    (hprev : ∀ j ej, j < i →
      ((generate_email_patterns fe.td fn ln dom).take 8).get? j = some ej →
      quick_syntax_check ej = false ∨
        ((verify_email_smtp fe.verEnv ej).1.result ≠ VerificationResult.VALID ∧
         (verify_email_smtp fe.verEnv ej).1.result ≠ VerificationResult.CATCH_ALL))
    (hsyn : quick_syntax_check ei = true)
    (hca : (verify_email_smtp fe.verEnv ei).1.result = VerificationResult.CATCH_ALL) :
    (find_email_for_contact fe true cache fn ln co).1 =
      ⟨fn, ln, co, some dom, (generate_email_patterns fe.td fn ln dom).head?,
       str "catch_all", i + 1⟩ := by
  have hp : generate_email_patterns fe.td fn ln dom ≠ [] := by
    intro h
    rw [h] at hget
    simp at hget
  have hloop := tryPatterns_first_catch_all fe fn ln co dom
    (generate_email_patterns fe.td fn ln dom)
    ((generate_email_patterns fe.td fn ln dom).take 8) 0 i ei hget hprev hsyn hca
  rcases hfd : find_domain fe.domEnv co (some cache) with ⟨d, rest⟩
  rw [hfd] at hd
  simp only at hd
  subst hd
  simp [find_email_for_contact, hfn, hln, hco, hfd, hp, hloop]

/-- Witness for C6: with `feW`, the first pattern `john.smith@acme.com` is
rejected (INVALID, inconclusive for the loop), the second pattern
`johnsmith@acme.com` triggers catch-all detection at index 1, and the result
reports the index-0 pattern with 2 patterns tried. -/
theorem claim_C6_witness :
    (find_email_for_contact feW true [] (str "John") (str "Smith") (str "Acme")).1 =
      ⟨str "John", str "Smith", str "Acme", some (str "acme.com"),
       (generate_email_patterns feW.td (str "John") (str "Smith") (str "acme.com")).head?,
       str "catch_all", 2⟩ := by
  refine claim_C6_catch_all_reports_first feW [] (str "John") (str "Smith") (str "Acme")
    (str "acme.com") 1 (str "johnsmith@acme.com")
    (by decide) (by decide) (by decide) (by decide) (by decide)
    ?_ (by decide) (by decide)
  intro j ej hj hg
  have hj0 : j = 0 := by omega
  subst hj0
  rw [show ((generate_email_patterns feW.td (str "John") (str "Smith")
      (str "acme.com")).take 8).get? 0 = some (str "john.smith@acme.com") from by decide] at hg
  have hej : ej = str "john.smith@acme.com" := by
    have := hg
    simp at this
    exact this.symm
  subst hej
  right
  exact ⟨by decide, by decide⟩
